import Mathlib

/-!
Verification of the `internal/tools` position-based entry points of
mcp-language-server: `FindReferences` (references.go), `GetTypeDefinition`
(type_definition.go) and `GetImplementation` (implementation.go).

The three entry points are shallowly embedded as Lean functions over an
oracle `Client` structure standing for the LSP client and the helper
utilities that live outside the provided sources (internal/lsp and
internal/tools/{utilities,lsp-utilities}.go). Each embedded entry point
also returns the ordered trace of client calls it issued, so ordering and
exactly-once properties can be stated. Go `uint32(x)` conversions are
modelled as `x mod 2^32` on `Int`/`Nat`.
-/

namespace Tools

/-- LSP protocol position: zero-indexed line and character, `uint32` fields
modelled as `Nat`. -/
structure Position where
  line : Nat
  character : Nat
deriving Repr, DecidableEq

/-- LSP protocol range with start and end positions. -/
structure Range where
  start : Position
  finish : Position
deriving Repr, DecidableEq

/-- LSP location: a document URI together with a range. -/
structure Location where
  uri : String
  range : Range
deriving Repr, DecidableEq

/-- Shared part of position-based request params: the document URI and the
zero-indexed position. -/
structure TextDocumentPositionParams where
  uri : String
  position : Position
deriving Repr, DecidableEq

/-- Params of a textDocument/references request (references.go builds these
with IncludeDeclaration set to false). -/
structure ReferenceParams where
  textDocumentPosition : TextDocumentPositionParams
  includeDeclaration : Bool
deriving Repr, DecidableEq

/-- Params of a textDocument/typeDefinition request. -/
structure TypeDefinitionParams where
  textDocumentPosition : TextDocumentPositionParams
deriving Repr, DecidableEq

/-- Params of a textDocument/implementation request. -/
structure ImplementationParams where
  textDocumentPosition : TextDocumentPositionParams
deriving Repr, DecidableEq

/-- A location link as returned in the richer response shape: only the
target fields matter for normalization. -/
structure LocationLink where
  targetUri : String
  targetRange : Range
  targetSelectionRange : Range
deriving Repr, DecidableEq

/-- The multi-shaped result of a definition-family request
(`Or_Result_textDocument_typeDefinition` and friends): a single location,
a list of locations, or a list of location links. -/
inductive DefinitionResult where
  | single (loc : Location)
  | locations (locs : List Location)
  | links (ls : List LocationLink)
deriving Repr, DecidableEq

/-- A contiguous line range, as produced by `ConvertLinesToRanges`. -/
structure LineRange where
  startLine : Nat
  endLine : Nat
deriving Repr, DecidableEq

/-- One client or helper call issued by an entry point, recorded in program
order. -/
inductive Event where
  | openFileCall (path : String)
  | referencesCall (params : ReferenceParams)
  | typeDefinitionCall (params : TypeDefinitionParams)
  | implementationCall (params : ImplementationParams)
  | lineRangesCall (locs : List Location) (totalLines contextLines : Nat)
deriving Repr, DecidableEq

/-- Oracle for the LSP client and the out-of-scope helpers: each field gives
the observed outcome of the corresponding call. `lspContextLines` is the
value of the LSP_CONTEXT_LINES environment variable (`none` when unset).
`convertLinesToRanges` and `formatLinesWithRanges` are the pure formatting
utilities from utilities.go, left abstract since the claims do not depend
on their internals. -/
structure Client where
  lspContextLines : Option String
  openFile : String → Except String Unit
  references : ReferenceParams → Except String (List Location)
  typeDefinition : TypeDefinitionParams → Except String DefinitionResult
  implementation : ImplementationParams → Except String DefinitionResult
  readFile : String → Except String String
  getLineRangesToDisplay : List Location → Nat → Nat → Except String (List Nat)
  convertLinesToRanges : List Nat → Nat → List LineRange
  formatLinesWithRanges : List String → List LineRange → String

/-- Go conversion `uint32(x)` applied to a signed integer: truncation to
32 bits, i.e. the nonnegative residue of `x` modulo `2^32`. -/
def uint32OfInt (x : Int) : Nat :=
  (x % (2 ^ 32 : Int)).toNat

/-- The zero-indexed position the entry points build from the one-indexed
line and column: `uint32(line - 1)` and `uint32(column - 1)`. -/
def positionFor (line column : Int) : Position :=
  { line := uint32OfInt (line - 1), character := uint32OfInt (column - 1) }

/-- The reference params FindReferences sends (references.go lines 38-48). -/
def refParamsFor (filePath : String) (line column : Int) : ReferenceParams :=
  { textDocumentPosition :=
      { uri := "file://" ++ filePath, position := positionFor line column },
    includeDeclaration := false }

/-- The params GetTypeDefinition sends (type_definition.go lines 26-33). -/
def typeDefParamsFor (filePath : String) (line column : Int) : TypeDefinitionParams :=
  { textDocumentPosition :=
      { uri := "file://" ++ filePath, position := positionFor line column } }

/-- The params GetImplementation sends (implementation.go lines 26-33). -/
def implParamsFor (filePath : String) (line column : Int) : ImplementationParams :=
  { textDocumentPosition :=
      { uri := "file://" ++ filePath, position := positionFor line column } }

/-- Go `strings.TrimPrefix(s, "file://")` as used on URI strings: drop the
scheme when it is present, return the string unchanged otherwise. -/
def stripFileScheme (s : String) : String :=
  if List.isPrefixOf "file://".data s.data then s.drop 7 else s

/-- Go `strings.Split(s, "\n")` on character lists: cut at every newline,
keeping empty segments, so the result always has one more element than the
number of newlines. -/
def splitNl : List Char → List (List Char)
  | [] => [[]]
  | c :: rest =>
    match splitNl rest with
    | [] => [[]]
    | h :: t => if c = Char.ofNat 10 then [] :: h :: t else (c :: h) :: t

/-- Go `strings.Split(content, "\n")` as used on file contents. -/
def splitLines (s : String) : List String :=
  (splitNl s.data).map String.mk

/-- Context-line count of FindReferences (references.go lines 16-22): 5
unless LSP_CONTEXT_LINES is set to a nonnegative integer. -/
def contextLinesOf (env : Client) : Nat :=
  match env.lspContextLines with
  | none => 5
  | some s =>
    if s = "" then 5
    else
      match s.toInt? with
      | some v => if 0 ≤ v then v.toNat else 5
      | none => 5

/-- The one-indexed location string `L%d:C%d` built from a zero-indexed
position (Line+1 and Character+1 in Go `uint32` arithmetic, which wraps). -/
def locString (p : Position) : String :=
  "L" ++ toString ((p.line + 1) % 2 ^ 32) ++ ":C" ++ toString ((p.character + 1) % 2 ^ 32)

/-- File header of a references section (references.go lines 80-83). -/
def refFileInfo (path : String) (n : Nat) : String :=
  "---\n\n" ++ path ++ "\nReferences in File: " ++ toString n ++ "\n"

/-- The distinct result URIs in ascending lexicographic order: the Go code
groups locations into a map keyed by URI and sorts the key set with
sort.Strings. -/
def sortedUris (locs : List Location) : List String :=
  List.insertionSort (· ≤ ·) ((locs.map Location.uri).dedup)

/-- Per-file body of the FindReferences loop (references.go lines 74-123)
for one URI: returns the helper calls made and the section produced, or
`none` when the section is skipped because GetLineRangesToDisplay failed. -/
def processRefFile (env : Client) (contextLines : Nat) (locs : List Location)
    (uriStr : String) : List Event × Option String :=
  let fileRefs := locs.filter (fun l => l.uri == uriStr)
  let path := stripFileScheme uriStr
  let fileInfo := refFileInfo path fileRefs.length
  match env.readFile path with
  | .error e => ([], some (fileInfo ++ "\nError reading file: " ++ e))
  | .ok content =>
    let lines := splitLines content
    let locStrings := fileRefs.map (fun ref => locString ref.range.start)
    match env.getLineRangesToDisplay fileRefs lines.length contextLines with
    | .error _ => ([Event.lineRangesCall fileRefs lines.length contextLines], none)
    | .ok linesToShow =>
      let lineRanges := env.convertLinesToRanges linesToShow lines.length
      let header :=
        if 0 < locStrings.length then
          fileInfo ++ "At: " ++ String.intercalate ", " locStrings ++ "\n"
        else fileInfo
      ([Event.lineRangesCall fileRefs lines.length contextLines],
       some (header ++ "\n" ++ env.formatLinesWithRanges lines lineRanges))

/-- Embedding of FindReferences (references.go): returns the trace of
client calls in program order together with the Go result, where
`Except.error` stands for a non-nil Go error. -/
def FindReferences (env : Client) (filePath : String) (line column : Int) :
    List Event × Except String String :=
  match env.openFile filePath with
  | .error e => ([Event.openFileCall filePath], .error ("could not open file: " ++ e))
  | .ok _ =>
    match env.references (refParamsFor filePath line column) with
    | .error e =>
      ([Event.openFileCall filePath,
        Event.referencesCall (refParamsFor filePath line column)],
       .error ("failed to get references: " ++ e))
    | .ok refs =>
      if refs.isEmpty then
        ([Event.openFileCall filePath,
          Event.referencesCall (refParamsFor filePath line column)],
         .ok "No references found")
      else
        let perFile := (sortedUris refs).map (processRefFile env (contextLinesOf env) refs)
        ([Event.openFileCall filePath,
          Event.referencesCall (refParamsFor filePath line column)] ++
           (perFile.map Prod.fst).flatten,
         .ok (String.intercalate "\n" (perFile.filterMap Prod.snd)))

/-- Modelled from the spec: `ExtractLocationsFromDefinitionResult` lives in
internal/tools/utilities.go, which is not among the provided sources. The
spec (section 4.5) says the client "normalizes all shapes into one uniform
location sequence": a single location becomes a one-element sequence, a
location list is kept as is, and each location link contributes the
location of its target. The Go function can also report an error, which
the entry points propagate; the modelled shapes all normalize successfully. -/
def ExtractLocationsFromDefinitionResult : DefinitionResult → Except String (List Location)
  | .single l => .ok [l]
  | .locations ls => .ok ls
  | .links ls =>
    .ok (ls.map (fun lk => { uri := lk.targetUri, range := lk.targetRange }))

/-- File header of a type-definition or implementation section, including
the At: line when there are locations (type_definition.go lines 66-78,
identical in implementation.go). -/
def defFileInfo (path : String) (locStrings : List String) : String :=
  let base := "---\n\nFile: " ++ path ++ "\n"
  if 0 < locStrings.length then
    base ++ "At: " ++ String.intercalate ", " locStrings ++ "\n\n"
  else base

/-- Per-file body of the GetTypeDefinition and GetImplementation loops
(type_definition.go lines 61-96, textually identical in implementation.go)
for one URI: the helper calls made and the section produced, or `none`
when the section is skipped because GetLineRangesToDisplay failed. -/
def processDefFile (env : Client) (locs : List Location) (uriStr : String) :
    List Event × Option String :=
  let fileLocs := locs.filter (fun l => l.uri == uriStr)
  let path := stripFileScheme uriStr
  let locStrings := fileLocs.map (fun loc => locString loc.range.start)
  let fileInfo := defFileInfo path locStrings
  match env.readFile path with
  | .error e => ([], some (fileInfo ++ "Error reading file: " ++ e))
  | .ok content =>
    let lines := splitLines content
    match env.getLineRangesToDisplay fileLocs lines.length 5 with
    | .error _ => ([Event.lineRangesCall fileLocs lines.length 5], none)
    | .ok linesToShow =>
      let lineRanges := env.convertLinesToRanges linesToShow lines.length
      ([Event.lineRangesCall fileLocs lines.length 5],
       some (fileInfo ++ env.formatLinesWithRanges lines lineRanges))

/-- Embedding of GetTypeDefinition (type_definition.go): the trace of
client calls in program order together with the Go result. -/
def GetTypeDefinition (env : Client) (filePath : String) (line column : Int) :
    List Event × Except String String :=
  match env.openFile filePath with
  | .error e => ([Event.openFileCall filePath], .error ("could not open file: " ++ e))
  | .ok _ =>
    match env.typeDefinition (typeDefParamsFor filePath line column) with
    | .error e =>
      ([Event.openFileCall filePath,
        Event.typeDefinitionCall (typeDefParamsFor filePath line column)],
       .error ("failed to get type definition: " ++ e))
    | .ok result =>
      match ExtractLocationsFromDefinitionResult result with
      | .error e =>
        ([Event.openFileCall filePath,
          Event.typeDefinitionCall (typeDefParamsFor filePath line column)],
         .error ("failed to parse type definition locations: " ++ e))
      | .ok locations =>
        if locations.isEmpty then
          ([Event.openFileCall filePath,
            Event.typeDefinitionCall (typeDefParamsFor filePath line column)],
           .ok "No type definition found")
        else
          let perFile := (sortedUris locations).map (processDefFile env locations)
          ([Event.openFileCall filePath,
            Event.typeDefinitionCall (typeDefParamsFor filePath line column)] ++
             (perFile.map Prod.fst).flatten,
           .ok (String.intercalate "\n" (perFile.filterMap Prod.snd)))

/-- Embedding of GetImplementation (implementation.go): the trace of client
calls in program order together with the Go result. -/
def GetImplementation (env : Client) (filePath : String) (line column : Int) :
    List Event × Except String String :=
  match env.openFile filePath with
  | .error e => ([Event.openFileCall filePath], .error ("could not open file: " ++ e))
  | .ok _ =>
    match env.implementation (implParamsFor filePath line column) with
    | .error e =>
      ([Event.openFileCall filePath,
        Event.implementationCall (implParamsFor filePath line column)],
       .error ("failed to get implementation: " ++ e))
    | .ok result =>
      match ExtractLocationsFromDefinitionResult result with
      | .error e =>
        ([Event.openFileCall filePath,
          Event.implementationCall (implParamsFor filePath line column)],
         .error ("failed to parse implementation locations: " ++ e))
      | .ok locations =>
        if locations.isEmpty then
          ([Event.openFileCall filePath,
            Event.implementationCall (implParamsFor filePath line column)],
           .ok "No implementations found")
        else
          let perFile := (sortedUris locations).map (processDefFile env locations)
          ([Event.openFileCall filePath,
            Event.implementationCall (implParamsFor filePath line column)] ++
             (perFile.map Prod.fst).flatten,
           .ok (String.intercalate "\n" (perFile.filterMap Prod.snd)))

/-- An outbound document-synchronization notification. -/
inductive SyncNotification where
  | didOpen (uri : String) (version : Nat) (content : String)
deriving Repr, DecidableEq

/-- Modelled from the spec: the document store behind `Client.OpenFile`
lives in internal/lsp/client.go, which is not among the provided sources.
The spec (section 4.3) says the store tracks which documents are open;
this model keeps the set of tracked URIs. -/
structure DocStore where
  tracked : List String
deriving Repr, DecidableEq

/-- Modelled from the spec: `ensureOpen(uri, currentDiskContent)` of the
document store (section 4.3) — "if the document is not tracked, sends an
open notification with version 1 and the given content, and begins
tracking it; if already tracked, is a no-op". Returns the new store state
and the notifications sent. -/
def ensureOpen (s : DocStore) (uri content : String) : DocStore × List SyncNotification :=
  if uri ∈ s.tracked then (s, [])
  else ({ tracked := uri :: s.tracked }, [SyncNotification.didOpen uri 1 content])

/-- Number of didOpen notifications for a given URI in a notification list. -/
def countOpens (uri : String) (ns : List SyncNotification) : Nat :=
  (ns.filter (fun n => match n with | .didOpen u _ _ => u == uri)).length

/-- A basic oracle where every call succeeds and every answer is empty;
used to instantiate universally quantified theorems at a concrete client. -/
def emptyClient : Client :=
  { lspContextLines := none
    openFile := fun _ => .ok ()
    references := fun _ => .ok []
    typeDefinition := fun _ => .ok (.locations [])
    implementation := fun _ => .ok (.locations [])
    readFile := fun _ => .error "no file"
    getLineRangesToDisplay := fun _ _ _ => .ok []
    convertLinesToRanges := fun _ _ => []
    formatLinesWithRanges := fun _ _ => "" }

example :
    FindReferences emptyClient "/tmp/a.go" 5 3 =
      ([Event.openFileCall "/tmp/a.go", Event.referencesCall (refParamsFor "/tmp/a.go" 5 3)],
       .ok "No references found") := rfl

/-- The position carried by a trace event, when the event is a
position-based protocol request. -/
def eventPosition : Event → Option Position
  | .referencesCall p => some p.textDocumentPosition.position
  | .typeDefinitionCall p => some p.textDocumentPosition.position
  | .implementationCall p => some p.textDocumentPosition.position
  | _ => none

/-- The positions of all position-based requests in a trace, in order. -/
def sentPositions (t : List Event) : List Position :=
  t.filterMap eventPosition

/-- Whether an event is a helper call rather than a protocol request or the
document-open step. -/
def isHelperEvent : Event → Bool
  | .lineRangesCall _ _ _ => true
  | _ => false

/-- Whether an event is a textDocument/references request. -/
def isReferencesCall : Event → Bool
  | .referencesCall _ => true
  | _ => false

/-- Whether an event is a textDocument/typeDefinition request. -/
def isTypeDefinitionCall : Event → Bool
  | .typeDefinitionCall _ => true
  | _ => false

/-- Whether an event is a textDocument/implementation request. -/
def isImplementationCall : Event → Bool
  | .implementationCall _ => true
  | _ => false

/-- Number of events of a given kind in a trace. -/
def requestCount (p : Event → Bool) (t : List Event) : Nat :=
  (t.filter p).length

lemma eventPosition_of_helper {e : Event} (h : isHelperEvent e = true) :
    eventPosition e = none := by
  cases e <;> simp_all [isHelperEvent, eventPosition]

lemma not_referencesCall_of_helper {e : Event} (h : isHelperEvent e = true) :
    isReferencesCall e = false := by
  cases e <;> simp_all [isHelperEvent, isReferencesCall]

lemma not_typeDefinitionCall_of_helper {e : Event} (h : isHelperEvent e = true) :
    isTypeDefinitionCall e = false := by
  cases e <;> simp_all [isHelperEvent, isTypeDefinitionCall]

lemma not_implementationCall_of_helper {e : Event} (h : isHelperEvent e = true) :
    isImplementationCall e = false := by
  cases e <;> simp_all [isHelperEvent, isImplementationCall]

lemma processRefFile_fst_helper (env : Client) (c : Nat) (locs : List Location)
    (u : String) : ∀ e ∈ (processRefFile env c locs u).fst, isHelperEvent e = true := by
  intro e he
  unfold processRefFile at he
  dsimp only at he
  split at he
  · simp at he
  · split at he
    · simp at he
      subst he
      rfl
    · simp at he
      subst he
      rfl

lemma processDefFile_fst_helper (env : Client) (locs : List Location)
    (u : String) : ∀ e ∈ (processDefFile env locs u).fst, isHelperEvent e = true := by
  intro e he
  unfold processDefFile at he
  dsimp only at he
  split at he
  · simp at he
  · split at he
    · simp at he
      subst he
      rfl
    · simp at he
      subst he
      rfl

lemma findReferences_trace (env : Client) (filePath : String) (line column : Int)
    (h : env.openFile filePath = .ok ()) :
    ∃ rest, (FindReferences env filePath line column).fst =
      Event.openFileCall filePath ::
        Event.referencesCall (refParamsFor filePath line column) :: rest ∧
      ∀ e ∈ rest, isHelperEvent e = true := by
  unfold FindReferences
  rw [h]
  cases hr : env.references (refParamsFor filePath line column) with
  | error e => exact ⟨[], rfl, by simp⟩
  | ok refs =>
    cases refs with
    | nil => exact ⟨[], rfl, by simp⟩
    | cons a as =>
      refine ⟨(List.map Prod.fst (List.map (processRefFile env (contextLinesOf env)
        (a :: as)) (sortedUris (a :: as)))).flatten, rfl, ?_⟩
      intro e he
      rw [List.mem_flatten] at he
      obtain ⟨l, hl, hel⟩ := he
      rw [List.mem_map] at hl
      obtain ⟨pair, hpair, hfst⟩ := hl
      rw [List.mem_map] at hpair
      obtain ⟨u, _, hu⟩ := hpair
      subst hu hfst
      exact processRefFile_fst_helper env _ _ u e hel

lemma getTypeDefinition_trace (env : Client) (filePath : String) (line column : Int)
    (h : env.openFile filePath = .ok ()) :
    ∃ rest, (GetTypeDefinition env filePath line column).fst =
      Event.openFileCall filePath ::
        Event.typeDefinitionCall (typeDefParamsFor filePath line column) :: rest ∧
      ∀ e ∈ rest, isHelperEvent e = true := by
  unfold GetTypeDefinition
  rw [h]
  dsimp only
  cases hr : env.typeDefinition (typeDefParamsFor filePath line column) with
  | error e => exact ⟨[], rfl, by simp⟩
  | ok result =>
    dsimp only
    cases he : ExtractLocationsFromDefinitionResult result with
    | error e => exact ⟨[], rfl, by simp⟩
    | ok locations =>
      cases locations with
      | nil => exact ⟨[], rfl, by simp⟩
      | cons a as =>
        refine ⟨(List.map Prod.fst (List.map (processDefFile env (a :: as))
          (sortedUris (a :: as)))).flatten, rfl, ?_⟩
        intro e hmem
        rw [List.mem_flatten] at hmem
        obtain ⟨l, hl, hel⟩ := hmem
        rw [List.mem_map] at hl
        obtain ⟨pair, hpair, hfst⟩ := hl
        rw [List.mem_map] at hpair
        obtain ⟨u, _, hu⟩ := hpair
        subst hu hfst
        exact processDefFile_fst_helper env _ u e hel

lemma getImplementation_trace (env : Client) (filePath : String) (line column : Int)
    (h : env.openFile filePath = .ok ()) :
    ∃ rest, (GetImplementation env filePath line column).fst =
      Event.openFileCall filePath ::
        Event.implementationCall (implParamsFor filePath line column) :: rest ∧
      ∀ e ∈ rest, isHelperEvent e = true := by
  unfold GetImplementation
  rw [h]
  dsimp only
  cases hr : env.implementation (implParamsFor filePath line column) with
  | error e => exact ⟨[], rfl, by simp⟩
  | ok result =>
    dsimp only
    cases he : ExtractLocationsFromDefinitionResult result with
    | error e => exact ⟨[], rfl, by simp⟩
    | ok locations =>
      cases locations with
      | nil => exact ⟨[], rfl, by simp⟩
      | cons a as =>
        refine ⟨(List.map Prod.fst (List.map (processDefFile env (a :: as))
          (sortedUris (a :: as)))).flatten, rfl, ?_⟩
        intro e hmem
        rw [List.mem_flatten] at hmem
        obtain ⟨l, hl, hel⟩ := hmem
        rw [List.mem_map] at hl
        obtain ⟨pair, hpair, hfst⟩ := hl
        rw [List.mem_map] at hpair
        obtain ⟨u, _, hu⟩ := hpair
        subst hu hfst
        exact processDefFile_fst_helper env _ u e hel

lemma sentPositions_of_rest {rest : List Event}
    (hAll : ∀ e ∈ rest, isHelperEvent e = true) :
    rest.filterMap eventPosition = [] := by
  rw [List.filterMap_eq_nil_iff]
  intro e he
  exact eventPosition_of_helper (hAll e he)

lemma filter_eq_nil_of_helper {p : Event → Bool} {rest : List Event}
    (hp : ∀ e : Event, isHelperEvent e = true → p e = false)
    (hAll : ∀ e ∈ rest, isHelperEvent e = true) : rest.filter p = [] := by
  rw [List.filter_eq_nil_iff]
  intro a ha
  simp [hp a (hAll a ha)]

lemma sentPositions_findReferences (env : Client) (filePath : String)
    (line column : Int) (h : env.openFile filePath = .ok ()) :
    sentPositions (FindReferences env filePath line column).fst =
      [positionFor line column] := by
  obtain ⟨rest, hEq, hAll⟩ := findReferences_trace env filePath line column h
  rw [sentPositions, hEq]
  simp [List.filterMap_cons, eventPosition, refParamsFor, sentPositions_of_rest hAll]

lemma sentPositions_getTypeDefinition (env : Client) (filePath : String)
    (line column : Int) (h : env.openFile filePath = .ok ()) :
    sentPositions (GetTypeDefinition env filePath line column).fst =
      [positionFor line column] := by
  obtain ⟨rest, hEq, hAll⟩ := getTypeDefinition_trace env filePath line column h
  rw [sentPositions, hEq]
  simp [List.filterMap_cons, eventPosition, typeDefParamsFor, sentPositions_of_rest hAll]

lemma sentPositions_getImplementation (env : Client) (filePath : String)
    (line column : Int) (h : env.openFile filePath = .ok ()) :
    sentPositions (GetImplementation env filePath line column).fst =
      [positionFor line column] := by
  obtain ⟨rest, hEq, hAll⟩ := getImplementation_trace env filePath line column h
  rw [sentPositions, hEq]
  simp [List.filterMap_cons, eventPosition, implParamsFor, sentPositions_of_rest hAll]

lemma requestCount_findReferences (env : Client) (filePath : String)
    (line column : Int) (h : env.openFile filePath = .ok ()) :
    requestCount isReferencesCall (FindReferences env filePath line column).fst = 1 := by
  obtain ⟨rest, hEq, hAll⟩ := findReferences_trace env filePath line column h
  rw [requestCount, hEq]
  simp [List.filter_cons, isReferencesCall,
    filter_eq_nil_of_helper (fun e he => not_referencesCall_of_helper he) hAll]

lemma requestCount_getTypeDefinition (env : Client) (filePath : String)
    (line column : Int) (h : env.openFile filePath = .ok ()) :
    requestCount isTypeDefinitionCall (GetTypeDefinition env filePath line column).fst = 1 := by
  obtain ⟨rest, hEq, hAll⟩ := getTypeDefinition_trace env filePath line column h
  rw [requestCount, hEq]
  simp [List.filter_cons, isTypeDefinitionCall,
    filter_eq_nil_of_helper (fun e he => not_typeDefinitionCall_of_helper he) hAll]

lemma requestCount_getImplementation (env : Client) (filePath : String)
    (line column : Int) (h : env.openFile filePath = .ok ()) :
    requestCount isImplementationCall (GetImplementation env filePath line column).fst = 1 := by
  obtain ⟨rest, hEq, hAll⟩ := getImplementation_trace env filePath line column h
  rw [requestCount, hEq]
  simp [List.filter_cons, isImplementationCall,
    filter_eq_nil_of_helper (fun e he => not_implementationCall_of_helper he) hAll]

lemma findReferences_openFail (env : Client) (filePath : String) (line column : Int)
    (e : String) (h : env.openFile filePath = .error e) :
    FindReferences env filePath line column =
      ([Event.openFileCall filePath], .error ("could not open file: " ++ e)) := by
  unfold FindReferences
  rw [h]

lemma getTypeDefinition_openFail (env : Client) (filePath : String) (line column : Int)
    (e : String) (h : env.openFile filePath = .error e) :
    GetTypeDefinition env filePath line column =
      ([Event.openFileCall filePath], .error ("could not open file: " ++ e)) := by
  unfold GetTypeDefinition
  rw [h]

lemma getImplementation_openFail (env : Client) (filePath : String) (line column : Int)
    (e : String) (h : env.openFile filePath = .error e) :
    GetImplementation env filePath line column =
      ([Event.openFileCall filePath], .error ("could not open file: " ++ e)) := by
  unfold GetImplementation
  rw [h]

example : (positionFor 5 3) = ⟨4, 2⟩ := by decide

example : (positionFor 0 1) = ⟨4294967295, 0⟩ := by decide

/-- A client whose document-open step always fails. -/
def failOpenClient : Client :=
  { emptyClient with openFile := fun _ => .error "no such file" }

/-- C4: for every position-based entry point (FindReferences,
GetTypeDefinition, GetImplementation), the document-open step is the first
client call issued; and when OpenFile fails, the entry point returns the
wrapped error immediately and the trace is exactly the one OpenFile call,
so no position-based request is issued. -/
theorem openFile_first_and_gates_requests (env : Client) (filePath : String)
    (line column : Int) (e : String) :
    (env.openFile filePath = .error e →
      FindReferences env filePath line column =
        ([Event.openFileCall filePath], .error ("could not open file: " ++ e)) ∧
      GetTypeDefinition env filePath line column =
        ([Event.openFileCall filePath], .error ("could not open file: " ++ e)) ∧
      GetImplementation env filePath line column =
        ([Event.openFileCall filePath], .error ("could not open file: " ++ e))) ∧
    (FindReferences env filePath line column).fst.head? =
      some (Event.openFileCall filePath) ∧
    (GetTypeDefinition env filePath line column).fst.head? =
      some (Event.openFileCall filePath) ∧
    (GetImplementation env filePath line column).fst.head? =
      some (Event.openFileCall filePath) := by
  refine ⟨fun h => ⟨findReferences_openFail env filePath line column e h,
    getTypeDefinition_openFail env filePath line column e h,
    getImplementation_openFail env filePath line column e h⟩, ?_, ?_, ?_⟩
  · cases hop : env.openFile filePath with
    | error e0 =>
      rw [findReferences_openFail env filePath line column e0 hop]
      rfl
    | ok a =>
      cases a
      obtain ⟨rest, hEq, _⟩ := findReferences_trace env filePath line column hop
      rw [hEq]
      rfl
  · cases hop : env.openFile filePath with
    | error e0 =>
      rw [getTypeDefinition_openFail env filePath line column e0 hop]
      rfl
    | ok a =>
      cases a
      obtain ⟨rest, hEq, _⟩ := getTypeDefinition_trace env filePath line column hop
      rw [hEq]
      rfl
  · cases hop : env.openFile filePath with
    | error e0 =>
      rw [getImplementation_openFail env filePath line column e0 hop]
      rfl
    | ok a =>
      cases a
      obtain ⟨rest, hEq, _⟩ := getImplementation_trace env filePath line column hop
      rw [hEq]
      rfl

/-- Witness for C4 at a concrete failing-open client. -/
theorem openFile_first_and_gates_requests_witness :
    FindReferences failOpenClient "/w.go" 1 1 =
      ([Event.openFileCall "/w.go"], .error "could not open file: no such file") ∧
    GetTypeDefinition failOpenClient "/w.go" 1 1 =
      ([Event.openFileCall "/w.go"], .error "could not open file: no such file") ∧
    (GetImplementation failOpenClient "/w.go" 1 1).fst.head? =
      some (Event.openFileCall "/w.go") := by
  have h := openFile_first_and_gates_requests failOpenClient "/w.go" 1 1 "no such file"
  exact ⟨(h.1 rfl).1, (h.1 rfl).2.1, h.2.2.2⟩

/-- C9: the entry points perform no range validation; for one-indexed input
line 0 (or column 0) the Go conversion uint32(line-1) wraps modulo 2^32 and
the outgoing request carries coordinate 4294967295 instead of the input
being rejected. -/
theorem no_range_validation_wraparound (env : Client) (filePath : String)
    (line column : Int) (hopen : env.openFile filePath = .ok ()) :
    (positionFor 0 column).line = 4294967295 ∧
    (positionFor line 0).character = 4294967295 ∧
    sentPositions (FindReferences env filePath 0 column).fst = [positionFor 0 column] ∧
    sentPositions (GetTypeDefinition env filePath 0 column).fst = [positionFor 0 column] ∧
    sentPositions (GetImplementation env filePath 0 column).fst = [positionFor 0 column] :=
  ⟨by show uint32OfInt (0 - 1) = 4294967295; decide,
   by show uint32OfInt (0 - 1) = 4294967295; decide,
   sentPositions_findReferences env filePath 0 column hopen,
   sentPositions_getTypeDefinition env filePath 0 column hopen,
   sentPositions_getImplementation env filePath 0 column hopen⟩

/-- Witness for C9 at a concrete client. -/
theorem no_range_validation_wraparound_witness :
    (positionFor 0 7).line = 4294967295 ∧
    sentPositions (FindReferences emptyClient "/w.go" 0 7).fst = [positionFor 0 7] := by
  have h := no_range_validation_wraparound emptyClient "/w.go" 0 7 rfl
  exact ⟨h.1, h.2.2.1⟩

/-- C2: when the underlying LSP call succeeds but yields zero locations,
each entry point returns a success value carrying its explicit
empty-answer message, never an error. -/
theorem empty_result_is_success (env : Client) (filePath : String)
    (line column : Int) (r : DefinitionResult)
    (hopen : env.openFile filePath = .ok ()) :
    (env.references (refParamsFor filePath line column) = .ok [] →
      (FindReferences env filePath line column).snd = .ok "No references found") ∧
    (env.typeDefinition (typeDefParamsFor filePath line column) = .ok r →
      ExtractLocationsFromDefinitionResult r = .ok [] →
      (GetTypeDefinition env filePath line column).snd = .ok "No type definition found") ∧
    (env.implementation (implParamsFor filePath line column) = .ok r →
      ExtractLocationsFromDefinitionResult r = .ok [] →
      (GetImplementation env filePath line column).snd = .ok "No implementations found") := by
  refine ⟨fun h => ?_, fun h hext => ?_, fun h hext => ?_⟩
  · unfold FindReferences
    rw [hopen, h]
    rfl
  · unfold GetTypeDefinition
    rw [hopen]
    dsimp only
    rw [h]
    dsimp only
    rw [hext]
    rfl
  · unfold GetImplementation
    rw [hopen]
    dsimp only
    rw [h]
    dsimp only
    rw [hext]
    rfl

/-- Witness for C2 at a concrete client whose calls all yield empty
results. -/
theorem empty_result_is_success_witness :
    (FindReferences emptyClient "/w.go" 5 3).snd = .ok "No references found" ∧
    (GetTypeDefinition emptyClient "/w.go" 5 3).snd = .ok "No type definition found" ∧
    (GetImplementation emptyClient "/w.go" 5 3).snd = .ok "No implementations found" := by
  have h := empty_result_is_success emptyClient "/w.go" 5 3 (.locations []) rfl
  exact ⟨h.1 rfl, h.2.1 rfl rfl, h.2.2 rfl rfl⟩

/-- A client whose LSP requests all fail with a server error. -/
def failReqClient : Client :=
  { emptyClient with
    references := fun _ => .error "server error"
    typeDefinition := fun _ => .error "server error"
    implementation := fun _ => .error "server error" }

/-- C7: with the target document opened, each entry point issues its LSP
request exactly once; when the request fails, the failure is returned to
the caller wrapped with operation context and the request is never
re-issued. -/
theorem request_once_no_retry (env : Client) (filePath : String)
    (line column : Int) (e : String)
    (hopen : env.openFile filePath = .ok ()) :
    requestCount isReferencesCall (FindReferences env filePath line column).fst = 1 ∧
    requestCount isTypeDefinitionCall (GetTypeDefinition env filePath line column).fst = 1 ∧
    requestCount isImplementationCall (GetImplementation env filePath line column).fst = 1 ∧
    (env.references (refParamsFor filePath line column) = .error e →
      (FindReferences env filePath line column).snd =
        .error ("failed to get references: " ++ e)) ∧
    (env.typeDefinition (typeDefParamsFor filePath line column) = .error e →
      (GetTypeDefinition env filePath line column).snd =
        .error ("failed to get type definition: " ++ e)) ∧
    (env.implementation (implParamsFor filePath line column) = .error e →
      (GetImplementation env filePath line column).snd =
        .error ("failed to get implementation: " ++ e)) := by
  refine ⟨requestCount_findReferences env filePath line column hopen,
    requestCount_getTypeDefinition env filePath line column hopen,
    requestCount_getImplementation env filePath line column hopen,
    fun h => ?_, fun h => ?_, fun h => ?_⟩
  · unfold FindReferences
    rw [hopen, h]
  · unfold GetTypeDefinition
    rw [hopen]
    dsimp only
    rw [h]
  · unfold GetImplementation
    rw [hopen]
    dsimp only
    rw [h]

/-- Witness for C7 at a concrete client whose requests fail. -/
theorem request_once_no_retry_witness :
    requestCount isReferencesCall (FindReferences failReqClient "/w.go" 2 2).fst = 1 ∧
    (FindReferences failReqClient "/w.go" 2 2).snd =
      .error "failed to get references: server error" ∧
    (GetTypeDefinition failReqClient "/w.go" 2 2).snd =
      .error "failed to get type definition: server error" := by
  have h := request_once_no_retry failReqClient "/w.go" 2 2 "server error" rfl
  exact ⟨h.1, h.2.2.2.1 rfl, h.2.2.2.2.1 rfl⟩

/-- C1 fails as stated: the one-indexed input line 4294967297 satisfies
line ≥ 1, yet the uint32 conversion wraps and the outgoing request carries
Line 0 rather than line - 1 = 4294967296. -/
theorem one_indexing_conversion_counterexample :
    sentPositions (FindReferences emptyClient "/w.go" 4294967297 1).fst =
      [{ line := 0, character := 0 }] ∧ (0 : Nat) ≠ 4294967296 := by
  constructor
  · rw [sentPositions_findReferences emptyClient "/w.go" 4294967297 1 rfl]
    decide
  · decide

lemma uint32OfInt_eq_toNat {x : Int} (h0 : 0 ≤ x) (h1 : x < 2 ^ 32) :
    uint32OfInt x = x.toNat := by
  unfold uint32OfInt
  rw [Int.emod_eq_of_lt h0 h1]

/-- C1 (amended): for one-indexed inputs with 1 ≤ line ≤ 2^32 and
1 ≤ column ≤ 2^32, the position placed in the outgoing request params of
each entry point is exactly (line - 1, column - 1); and a zero-indexed
result position (l, c) with l + 1 < 2^32 and c + 1 < 2^32 is reported back
in the output text as the one-indexed string L(l+1):C(c+1). -/
theorem one_indexing_conversion (env : Client) (filePath : String)
    (line column : Int) (p : Position)
    (hline1 : 1 ≤ line) (hline2 : line ≤ 2 ^ 32)
    (hcol1 : 1 ≤ column) (hcol2 : column ≤ 2 ^ 32)
    (hopen : env.openFile filePath = .ok ())
    (hl : p.line + 1 < 2 ^ 32) (hc : p.character + 1 < 2 ^ 32) :
    sentPositions (FindReferences env filePath line column).fst =
      [{ line := (line - 1).toNat, character := (column - 1).toNat }] ∧
    sentPositions (GetTypeDefinition env filePath line column).fst =
      [{ line := (line - 1).toNat, character := (column - 1).toNat }] ∧
    sentPositions (GetImplementation env filePath line column).fst =
      [{ line := (line - 1).toNat, character := (column - 1).toNat }] ∧
    locString p = "L" ++ toString (p.line + 1) ++ ":C" ++ toString (p.character + 1) := by
  have hpos : positionFor line column =
      { line := (line - 1).toNat, character := (column - 1).toNat } := by
    unfold positionFor
    rw [uint32OfInt_eq_toNat (by omega) (by omega),
      uint32OfInt_eq_toNat (by omega) (by omega)]
  refine ⟨?_, ?_, ?_, ?_⟩
  · rw [sentPositions_findReferences env filePath line column hopen, hpos]
  · rw [sentPositions_getTypeDefinition env filePath line column hopen, hpos]
  · rw [sentPositions_getImplementation env filePath line column hopen, hpos]
  · unfold locString
    rw [Nat.mod_eq_of_lt hl, Nat.mod_eq_of_lt hc]

/-- Witness for the amended C1: one-indexed (5, 3) is sent as (4, 2) and a
zero-indexed result (9, 1) is reported as L10:C2. -/
theorem one_indexing_conversion_witness :
    sentPositions (FindReferences emptyClient "/w.go" 5 3).fst =
      [{ line := 4, character := 2 }] ∧
    locString { line := 9, character := 1 } = "L10:C2" := by
  have h := one_indexing_conversion emptyClient "/w.go" 5 3
    { line := 9, character := 1 } (by decide) (by decide) (by decide) (by decide)
    rfl (by decide) (by decide)
  refine ⟨?_, ?_⟩
  · rw [h.1]
    decide
  · rw [h.2.2.2]
    decide

/-- Client with the typeDefinition answer replaced by a fixed result. -/
def withTypeDef (env : Client) (r : DefinitionResult) : Client :=
  { env with typeDefinition := fun _ => .ok r }

/-- Client with the implementation answer replaced by a fixed result. -/
def withImpl (env : Client) (r : DefinitionResult) : Client :=
  { env with implementation := fun _ => .ok r }

/-- C5: whenever two protocol results normalize to the same location
sequence via ExtractLocationsFromDefinitionResult, GetTypeDefinition and
GetImplementation behave identically on them: the formatting and return
path depends only on the normalized sequence, never on the response
shape. -/
theorem normalization_determines_output (env : Client) (filePath : String)
    (line column : Int) (r1 r2 : DefinitionResult)
    (h : ExtractLocationsFromDefinitionResult r1 =
      ExtractLocationsFromDefinitionResult r2) :
    GetTypeDefinition (withTypeDef env r1) filePath line column =
      GetTypeDefinition (withTypeDef env r2) filePath line column ∧
    GetImplementation (withImpl env r1) filePath line column =
      GetImplementation (withImpl env r2) filePath line column := by
  constructor
  · unfold GetTypeDefinition withTypeDef
    dsimp only
    cases env.openFile filePath with
    | error e => rfl
    | ok a =>
      rw [h]
      rfl
  · unfold GetImplementation withImpl
    dsimp only
    cases env.openFile filePath with
    | error e => rfl
    | ok a =>
      rw [h]
      rfl

/-- A fixed location used to instantiate witnesses. -/
def wLoc : Location :=
  { uri := "file:///w.go",
    range := { start := { line := 0, character := 0 },
               finish := { line := 0, character := 0 } } }

/-- Witness for C5: the single-location shape and the one-element
location-list shape produce identical outputs. -/
theorem normalization_determines_output_witness :
    GetTypeDefinition (withTypeDef emptyClient (.single wLoc)) "/w.go" 1 1 =
      GetTypeDefinition (withTypeDef emptyClient (.locations [wLoc])) "/w.go" 1 1 := by
  have h := normalization_determines_output emptyClient "/w.go" 1 1
    (.single wLoc) (.locations [wLoc]) rfl
  exact h.1

/-- C6 (spec model): ensureOpen is a no-op on a tracked document; two
successive calls for the same URI send exactly one didOpen notification,
and a repeated call on a tracked document sends none. -/
theorem ensureOpen_second_call_noop (s : DocStore) (uri c1 c2 : String) :
    (uri ∈ s.tracked → ensureOpen s uri c1 = (s, [])) ∧
    (ensureOpen (ensureOpen s uri c1).fst uri c2).snd = [] ∧
    (uri ∉ s.tracked →
      countOpens uri ((ensureOpen s uri c1).snd ++
        (ensureOpen (ensureOpen s uri c1).fst uri c2).snd) = 1) := by
  by_cases hmem : uri ∈ s.tracked
  · exact ⟨fun _ => by simp [ensureOpen, hmem], by simp [ensureOpen, hmem],
      fun hn => absurd hmem hn⟩
  · refine ⟨fun hmem2 => absurd hmem2 hmem, ?_, fun _ => ?_⟩
    · simp [ensureOpen, hmem]
    · simp [ensureOpen, hmem, countOpens]

/-- Witness for C6 starting from an empty document store. -/
theorem ensureOpen_second_call_noop_witness :
    (ensureOpen (ensureOpen ⟨[]⟩ "file:///w.go" "x").fst "file:///w.go" "y").snd = [] ∧
    countOpens "file:///w.go" ((ensureOpen ⟨[]⟩ "file:///w.go" "x").snd ++
      (ensureOpen (ensureOpen ⟨[]⟩ "file:///w.go" "x").fst "file:///w.go" "y").snd) = 1 := by
  have h := ensureOpen_second_call_noop ⟨[]⟩ "file:///w.go" "x" "y"
  exact ⟨h.2.1, h.2.2 (by simp)⟩

/-- Whether a Go (string, error) result has a nil error. -/
def isOkResult : Except String String → Bool
  | .ok _ => true
  | .error _ => false

lemma extract_ok (r : DefinitionResult) :
    ∃ ls, ExtractLocationsFromDefinitionResult r = .ok ls := by
  cases r <;> exact ⟨_, rfl⟩

/-- A location in a single result file, used by counterexamples. -/
def cexLoc : Location :=
  { uri := "file:///a.go",
    range := { start := { line := 0, character := 0 },
               finish := { line := 0, character := 0 } } }

/-- A client where the references request yields one location, the file is
readable, and the per-file GetLineRangesToDisplay helper fails. -/
def lineRangesFailClient : Client :=
  { emptyClient with
    references := fun _ => .ok [cexLoc]
    readFile := fun _ => .ok "x"
    getLineRangesToDisplay := fun _ _ _ => .error "boom" }

/-- C3 fails as stated: in this run the per-file GetLineRangesToDisplay
call is made and returns an error, yet FindReferences returns a success
value (.ok) in which no error is surfaced — the section of the failing
file is silently skipped. -/
theorem errors_surfaced_counterexample :
    lineRangesFailClient.getLineRangesToDisplay [cexLoc] 1 5 = .error "boom" ∧
    (FindReferences lineRangesFailClient "/a.go" 1 1).fst =
      [Event.openFileCall "/a.go", Event.referencesCall (refParamsFor "/a.go" 1 1),
       Event.lineRangesCall [cexLoc] 1 5] ∧
    (FindReferences lineRangesFailClient "/a.go" 1 1).snd = .ok "" :=
  ⟨rfl, rfl, rfl⟩

/-- C3 (amended): errors of the document-open step and of the main LSP
request are surfaced in the returned value; but a failure of the per-file
GetLineRangesToDisplay helper is not surfaced — once the main request has
succeeded, each entry point returns a success value no matter what the
per-file helpers do, skipping the section of the affected file. -/
theorem errors_surfaced_except_line_ranges (env : Client) (filePath : String)
    (line column : Int) (e : String) (r : DefinitionResult) (refs : List Location) :
    (env.openFile filePath = .error e →
      (FindReferences env filePath line column).snd =
        .error ("could not open file: " ++ e) ∧
      (GetTypeDefinition env filePath line column).snd =
        .error ("could not open file: " ++ e) ∧
      (GetImplementation env filePath line column).snd =
        .error ("could not open file: " ++ e)) ∧
    (env.openFile filePath = .ok () →
      (env.references (refParamsFor filePath line column) = .error e →
        (FindReferences env filePath line column).snd =
          .error ("failed to get references: " ++ e)) ∧
      (env.typeDefinition (typeDefParamsFor filePath line column) = .error e →
        (GetTypeDefinition env filePath line column).snd =
          .error ("failed to get type definition: " ++ e)) ∧
      (env.implementation (implParamsFor filePath line column) = .error e →
        (GetImplementation env filePath line column).snd =
          .error ("failed to get implementation: " ++ e)) ∧
      (env.references (refParamsFor filePath line column) = .ok refs →
        isOkResult (FindReferences env filePath line column).snd = true) ∧
      (env.typeDefinition (typeDefParamsFor filePath line column) = .ok r →
        isOkResult (GetTypeDefinition env filePath line column).snd = true) ∧
      (env.implementation (implParamsFor filePath line column) = .ok r →
        isOkResult (GetImplementation env filePath line column).snd = true)) := by
  constructor
  · intro h
    exact ⟨by rw [findReferences_openFail env filePath line column e h],
      by rw [getTypeDefinition_openFail env filePath line column e h],
      by rw [getImplementation_openFail env filePath line column e h]⟩
  · intro hopen
    refine ⟨fun h => ?_, fun h => ?_, fun h => ?_, fun h => ?_, fun h => ?_, fun h => ?_⟩
    · unfold FindReferences
      rw [hopen, h]
    · unfold GetTypeDefinition
      rw [hopen]
      dsimp only
      rw [h]
    · unfold GetImplementation
      rw [hopen]
      dsimp only
      rw [h]
    · unfold FindReferences
      rw [hopen, h]
      cases refs with
      | nil => rfl
      | cons a as => rfl
    · unfold GetTypeDefinition
      rw [hopen]
      dsimp only
      rw [h]
      dsimp only
      obtain ⟨ls, hls⟩ := extract_ok r
      rw [hls]
      cases ls with
      | nil => rfl
      | cons a as => rfl
    · unfold GetImplementation
      rw [hopen]
      dsimp only
      rw [h]
      dsimp only
      obtain ⟨ls, hls⟩ := extract_ok r
      rw [hls]
      cases ls with
      | nil => rfl
      | cons a as => rfl

/-- Witness for the amended C3: with a failing per-file helper the
operation still succeeds, and a failing main request is surfaced. -/
theorem errors_surfaced_except_line_ranges_witness :
    isOkResult (FindReferences lineRangesFailClient "/a.go" 1 1).snd = true ∧
    (FindReferences failReqClient "/a.go" 1 1).snd =
      .error "failed to get references: server error" := by
  have h1 := errors_surfaced_except_line_ranges lineRangesFailClient "/a.go" 1 1
    "server error" (.locations []) [cexLoc]
  have h2 := errors_surfaced_except_line_ranges failReqClient "/a.go" 1 1
    "server error" (.locations []) []
  exact ⟨(h1.2 rfl).2.2.2.1 rfl, (h2.2 rfl).1 rfl⟩

/-- A client whose references, typeDefinition and implementation requests
all yield one fixed location. -/
def okRefsClient : Client :=
  { emptyClient with
    references := fun _ => .ok [wLoc]
    typeDefinition := fun _ => .ok (.locations [wLoc])
    implementation := fun _ => .ok (.locations [wLoc]) }

/-- C8: for FindReferences, GetTypeDefinition and GetImplementation, the
per-file sections of a non-empty result are emitted in ascending
lexicographic URI order: the URI sequence driving the output is sorted, is
invariant under permutations of the location list (so it cannot depend on
arrival order or map iteration order), and the successful output of each
of the three entry points is exactly the sections joined in that order. -/
theorem sections_sorted_by_uri (locs locs1 locs2 : List Location) (env : Client)
    (filePath : String) (line column : Int) (refs : List Location)
    (r : DefinitionResult) (dlocs : List Location) :
    (sortedUris locs).Sorted (· ≤ ·) ∧
    (List.Perm locs1 locs2 → sortedUris locs1 = sortedUris locs2) ∧
    (env.openFile filePath = .ok () →
      env.references (refParamsFor filePath line column) = .ok refs →
      refs ≠ [] →
      (FindReferences env filePath line column).snd =
        .ok (String.intercalate "\n"
          (((sortedUris refs).map
            (processRefFile env (contextLinesOf env) refs)).filterMap Prod.snd))) ∧
    (env.openFile filePath = .ok () →
      env.typeDefinition (typeDefParamsFor filePath line column) = .ok r →
      ExtractLocationsFromDefinitionResult r = .ok dlocs →
      dlocs ≠ [] →
      (GetTypeDefinition env filePath line column).snd =
        .ok (String.intercalate "\n"
          (((sortedUris dlocs).map (processDefFile env dlocs)).filterMap Prod.snd))) ∧
    (env.openFile filePath = .ok () →
      env.implementation (implParamsFor filePath line column) = .ok r →
      ExtractLocationsFromDefinitionResult r = .ok dlocs →
      dlocs ≠ [] →
      (GetImplementation env filePath line column).snd =
        .ok (String.intercalate "\n"
          (((sortedUris dlocs).map (processDefFile env dlocs)).filterMap Prod.snd))) := by
  refine ⟨List.sorted_insertionSort _ _, fun hperm => ?_,
    fun hopen href hne => ?_, fun hopen hr hext hne => ?_, fun hopen hr hext hne => ?_⟩
  · have h1 : List.Perm ((locs1.map Location.uri).dedup) ((locs2.map Location.uri).dedup) :=
      (hperm.map Location.uri).dedup
    exact List.eq_of_perm_of_sorted
      (((List.perm_insertionSort _ _).trans h1).trans (List.perm_insertionSort _ _).symm)
      (List.sorted_insertionSort _ _) (List.sorted_insertionSort _ _)
  · unfold FindReferences
    rw [hopen, href]
    cases refs with
    | nil => exact absurd rfl hne
    | cons a as => rfl
  · unfold GetTypeDefinition
    rw [hopen]
    dsimp only
    rw [hr]
    dsimp only
    rw [hext]
    cases dlocs with
    | nil => exact absurd rfl hne
    | cons a as => rfl
  · unfold GetImplementation
    rw [hopen]
    dsimp only
    rw [hr]
    dsimp only
    rw [hext]
    cases dlocs with
    | nil => exact absurd rfl hne
    | cons a as => rfl

/-- Witness for C8 at a concrete client and a one-location result, touching
all three entry points. -/
theorem sections_sorted_by_uri_witness :
    sortedUris [wLoc, cexLoc] = sortedUris [cexLoc, wLoc] ∧
    (FindReferences okRefsClient "/w.go" 1 1).snd =
      .ok (String.intercalate "\n"
        (((sortedUris [wLoc]).map
          (processRefFile okRefsClient (contextLinesOf okRefsClient) [wLoc])).filterMap
            Prod.snd)) ∧
    (GetTypeDefinition okRefsClient "/w.go" 1 1).snd =
      .ok (String.intercalate "\n"
        (((sortedUris [wLoc]).map (processDefFile okRefsClient [wLoc])).filterMap
          Prod.snd)) ∧
    (GetImplementation okRefsClient "/w.go" 1 1).snd =
      .ok (String.intercalate "\n"
        (((sortedUris [wLoc]).map (processDefFile okRefsClient [wLoc])).filterMap
          Prod.snd)) := by
  have h := sections_sorted_by_uri [wLoc] [wLoc, cexLoc] [cexLoc, wLoc] okRefsClient
    "/w.go" 1 1 [wLoc] (.locations [wLoc]) [wLoc]
  exact ⟨h.2.1 (List.Perm.swap cexLoc wLoc []), h.2.2.1 rfl rfl (by decide),
    h.2.2.2.1 rfl rfl rfl (by decide), h.2.2.2.2 rfl rfl rfl (by decide)⟩

/-- A client where the main requests yield one location but reading the
result file from disk fails. -/
def readFailClient : Client :=
  { emptyClient with
    references := fun _ => .ok [wLoc]
    typeDefinition := fun _ => .ok (.locations [wLoc])
    implementation := fun _ => .ok (.locations [wLoc])
    readFile := fun _ => .error "permission denied" }

/-- C10: for FindReferences, GetTypeDefinition and GetImplementation, a
failure to read one result file from disk does not fail the whole
operation: once the main request has succeeded each entry point still
returns success; the section of the unreadable file is its header followed
by an Error-reading-file message; and each per-file section depends only on
the client behavior at that file, so the other sections are unaffected. -/
theorem read_error_isolated (env env2 : Client) (filePath : String)
    (line column : Int) (cl : Nat) (refs : List Location) (u e : String)
    (r : DefinitionResult) :
    (env.openFile filePath = .ok () →
      env.references (refParamsFor filePath line column) = .ok refs →
      isOkResult (FindReferences env filePath line column).snd = true) ∧
    (env.openFile filePath = .ok () →
      env.typeDefinition (typeDefParamsFor filePath line column) = .ok r →
      isOkResult (GetTypeDefinition env filePath line column).snd = true) ∧
    (env.openFile filePath = .ok () →
      env.implementation (implParamsFor filePath line column) = .ok r →
      isOkResult (GetImplementation env filePath line column).snd = true) ∧
    (env.readFile (stripFileScheme u) = .error e →
      (processRefFile env cl refs u).snd =
        some (refFileInfo (stripFileScheme u)
          (refs.filter (fun l => l.uri == u)).length ++ "\nError reading file: " ++ e) ∧
      (processDefFile env refs u).snd =
        some (defFileInfo (stripFileScheme u)
          ((refs.filter (fun l => l.uri == u)).map (fun loc => locString loc.range.start)) ++
          "Error reading file: " ++ e)) ∧
    (env2.readFile (stripFileScheme u) = env.readFile (stripFileScheme u) →
      (∀ a b c, env2.getLineRangesToDisplay a b c = env.getLineRangesToDisplay a b c) →
      (∀ a b, env2.convertLinesToRanges a b = env.convertLinesToRanges a b) →
      (∀ a b, env2.formatLinesWithRanges a b = env.formatLinesWithRanges a b) →
      processRefFile env2 cl refs u = processRefFile env cl refs u ∧
      processDefFile env2 refs u = processDefFile env refs u) := by
  refine ⟨fun hopen href => ?_, fun hopen hr => ?_, fun hopen hr => ?_,
    fun hread => ?_, fun h1 h2 h3 h4 => ?_⟩
  · unfold FindReferences
    rw [hopen, href]
    cases refs with
    | nil => rfl
    | cons a as => rfl
  · unfold GetTypeDefinition
    rw [hopen]
    dsimp only
    rw [hr]
    dsimp only
    obtain ⟨ls, hls⟩ := extract_ok r
    rw [hls]
    cases ls with
    | nil => rfl
    | cons a as => rfl
  · unfold GetImplementation
    rw [hopen]
    dsimp only
    rw [hr]
    dsimp only
    obtain ⟨ls, hls⟩ := extract_ok r
    rw [hls]
    cases ls with
    | nil => rfl
    | cons a as => rfl
  · constructor
    · unfold processRefFile
      dsimp only
      rw [hread]
    · unfold processDefFile
      dsimp only
      rw [hread]
  · constructor
    · simp only [processRefFile, h1, h2, h3, h4]
    · simp only [processDefFile, h1, h2, h3, h4]

/-- Witness for C10: a disk-read failure yields a success result for all
three entry points, with an error-message section. -/
theorem read_error_isolated_witness :
    isOkResult (FindReferences readFailClient "/w.go" 1 1).snd = true ∧
    isOkResult (GetTypeDefinition readFailClient "/w.go" 1 1).snd = true ∧
    isOkResult (GetImplementation readFailClient "/w.go" 1 1).snd = true ∧
    (processRefFile readFailClient 5 [wLoc] "file:///w.go").snd =
      some (refFileInfo "/w.go" 1 ++ "\nError reading file: permission denied") := by
  have h := read_error_isolated readFailClient emptyClient "/w.go" 1 1 5 [wLoc]
    "file:///w.go" "permission denied" (.locations [wLoc])
  refine ⟨h.1 rfl rfl, h.2.1 rfl rfl, h.2.2.1 rfl rfl, ?_⟩
  rw [(h.2.2.2.1 rfl).1]
  decide

end Tools
